/-
Verification of the sap-stocks-tool transaction core (src/sap-stocks-tool.py).

Shallow embedding conventions:
* Python floats are modelled as exact rationals (ℚ); the spec states its
  numeric examples in exact decimal arithmetic.
* Calendar dates are a structure (year, month, day); `yesterday_str` mirrors
  the `datetime - timedelta(days=1)` decrement used by the source.
* The network-backed BCB quotation service is abstracted as a pure function
  `source : Date → QuotationData`; one application of `source` models one
  `requests.get` call, and the resolver counts how many such calls it makes.
* The module-level dict `BCB_CACHE_FOR_EUR_REQUESTS` is modelled as an
  association list threaded through the resolver; prepending a pair models
  `dict[k] = v` (lookup finds the most recent binding, as in a dict).
* Exceptions are modelled with `Except`/`Option`; the unbounded `while` loop
  of the resolver is given explicit fuel (`none` = fuel exhausted, which the
  real loop would spend looping further).
* Python attributes that may hold `None` (or that may be absent from
  `__dict__`, like the dynamically added `total_cost_brl`) are `Option` fields.
-/
import Mathlib

/-- A calendar date, the numeric content of the ISO `YYYY-MM-DD` strings the
source passes around (`StockTransactionEntry.get_date_as_tuple`). -/
structure Date where
  year : Int
  month : Nat
  day : Nat
deriving DecidableEq, Repr

/-- Gregorian leap-year rule, as implemented by Python's `datetime`. -/
def isLeap (y : Int) : Bool :=
  (y % 4 == 0 && y % 100 != 0) || (y % 400 == 0)

/-- Number of days of month `m` of year `y` (months outside 1..12 never arise
for valid dates; the value returned for them is irrelevant). -/
def days_in_month (y : Int) (m : Nat) : Nat :=
  if m = 2 then (if isLeap y then 29 else 28)
  else if m = 4 ∨ m = 6 ∨ m = 9 ∨ m = 11 then 30
  else 31

/-- Model of `yesterday_str`: build a datetime, subtract one day, format back.
The string formatting round-trips exactly (zero-padded ISO components), so the
model works directly on the date components. -/
def yesterday_str (d : Date) : Date :=
  if 1 < d.day then ⟨d.year, d.month, d.day - 1⟩
  else if 1 < d.month then ⟨d.year, d.month - 1, days_in_month d.year (d.month - 1)⟩
  else ⟨d.year - 1, 12, 31⟩

/-- A date that `datetime` would accept: month and day in calendar range. -/
def DateValid (d : Date) : Prop :=
  1 ≤ d.month ∧ d.month ≤ 12 ∧ 1 ≤ d.day ∧ d.day ≤ days_in_month d.year d.month

instance (d : Date) : Decidable (DateValid d) := by
  unfold DateValid; infer_instance

/-- A scale that is strictly monotone along `yesterday_str` steps on valid
dates (372 = 12·31 dominates any month length). -/
def dateIdx (d : Date) : Int :=
  372 * d.year + 31 * (d.month : Int) + (d.day : Int)

theorem days_in_month_ge_one (y : Int) (m : Nat) : 1 ≤ days_in_month y m := by
  unfold days_in_month
  split
  · split <;> omega
  · split <;> omega

theorem days_in_month_le_31 (y : Int) (m : Nat) : days_in_month y m ≤ 31 := by
  unfold days_in_month
  split
  · split <;> omega
  · split <;> omega

theorem dec_year_days_in_month (y : Int) : days_in_month (y - 1) 12 = 31 := by
  unfold days_in_month
  norm_num

theorem yesterday_str_valid {d : Date} (h : DateValid d) : DateValid (yesterday_str d) := by
  obtain ⟨d_year, d_month, d_day⟩ := d
  obtain ⟨h1, h2, h3, h4⟩ := h
  have g1 := days_in_month_ge_one d_year (d_month - 1)
  have g2 := dec_year_days_in_month d_year
  unfold yesterday_str
  unfold DateValid
  dsimp only at h1 h2 h3 h4 ⊢
  split
  · refine ⟨?_, ?_, ?_, ?_⟩ <;> dsimp only <;> omega
  · split
    · refine ⟨?_, ?_, ?_, ?_⟩ <;> dsimp only <;> omega
    · refine ⟨?_, ?_, ?_, ?_⟩ <;> dsimp only <;> omega

theorem yesterday_str_lt {d : Date} (h : DateValid d) :
    dateIdx (yesterday_str d) < dateIdx d := by
  obtain ⟨d_year, d_month, d_day⟩ := d
  obtain ⟨h1, h2, h3, h4⟩ := h
  have h31 : days_in_month d_year (d_month - 1) ≤ 31 := days_in_month_le_31 _ _
  unfold yesterday_str dateIdx
  dsimp only at h1 h2 h3 h4 ⊢
  split
  · dsimp only
    omega
  · split
    · dsimp only
      omega
    · dsimp only
      omega

theorem iterate_yesterday_valid {d : Date} (h : DateValid d) (k : Nat) :
    DateValid (yesterday_str^[k] d) := by
  induction k with
  | zero => simpa using h
  | succ n ih =>
      rw [Function.iterate_succ_apply']
      exact yesterday_str_valid ih

theorem iterate_yesterday_lt {d : Date} (h : DateValid d) {k : Nat} (hk : 1 ≤ k) :
    dateIdx (yesterday_str^[k] d) < dateIdx d := by
  induction k with
  | zero => omega
  | succ n ih =>
      rw [Function.iterate_succ_apply']
      rcases Nat.eq_zero_or_pos n with hn | hn
      · subst hn
        simpa using yesterday_str_lt h
      · exact lt_trans (yesterday_str_lt (iterate_yesterday_valid h n)) (ih hn)

theorem iterate_yesterday_ne {d : Date} (h : DateValid d) {k : Nat} (hk : 1 ≤ k) :
    yesterday_str^[k] d ≠ d := by
  intro heq
  have := iterate_yesterday_lt h hk
  rw [heq] at this
  omega

/-- Mirrors `class OpType(Enum)`. -/
inductive OpType where
  | BUY
  | SELL
deriving DecidableEq, Repr

/-- Mirrors `class CurrencyConversionType(Enum)`. -/
inductive CurrencyConversionType where
  | EUR_TO_BRL
  | BRL_TO_EUR
deriving DecidableEq, Repr

/-- Mirrors `TAX_ON_PROFIT_PERCENTAGE = 0.15`. -/
def TAX_ON_PROFIT_PERCENTAGE : ℚ := 15 / 100

/-- Mirrors `class StockTransactionEntry`.  Fields are in `__init__` order.
Attributes that can hold Python `None` are `Option`s.  `total_cost_brl` is not
an `__init__` parameter: `process_transactions` adds it dynamically on BUY
entries; `none` models the attribute being absent from `__dict__`. -/
structure StockTransactionEntry where
  date : Date
  op_type : Option OpType
  qty : Option ℚ
  total_qty : Option ℚ
  cur_conv_rate : Option ℚ
  cur_conv_type : Option CurrencyConversionType
  avg_price : Option ℚ
  price_eur : Option ℚ
  price_brl : Option ℚ
  net_proceeds : Option ℚ
  profit : Option ℚ
  tax : Option ℚ
  total_cost_brl : Option ℚ
deriving DecidableEq, Repr

/-- A placeholder entry used only as the default of `List.getD`. -/
def dummyEntry : StockTransactionEntry :=
  ⟨⟨0, 1, 1⟩, none, none, none, none, none, none, none, none, none, none, none, none⟩

/-- Mirrors `StockTransactionEntry.sort_by_date`: the key
`(x.date, 0 if x.op_type == OpType.BUY else 1)`.  (In the source `x.date` is
the ISO `YYYY-MM-DD` string; lexicographic string comparison of such strings
coincides with componentwise comparison of (year, month, day).) -/
def StockTransactionEntry.sort_by_date (x : StockTransactionEntry) : Date × Nat :=
  (x.date, if x.op_type = some OpType.BUY then 0 else 1)

/-- Lexicographic strict order on dates, the order of ISO date strings. -/
def date_lt (a b : Date) : Prop :=
  a.year < b.year ∨ (a.year = b.year ∧
    (a.month < b.month ∨ (a.month = b.month ∧ a.day < b.day)))

instance (a b : Date) : Decidable (date_lt a b) := by
  unfold date_lt; infer_instance

/-- Python tuple comparison of two `sort_by_date` keys (lexicographic). -/
def sort_key_le (a b : Date × Nat) : Prop :=
  date_lt a.1 b.1 ∨ (a.1 = b.1 ∧ a.2 ≤ b.2)

instance (a b : Date × Nat) : Decidable (sort_key_le a b) := by
  unfold sort_key_le; infer_instance

/-- Boolean comparison used to model the stable `list.sort(key=sort_by_date)`. -/
def sort_by_date_le (a b : StockTransactionEntry) : Bool :=
  decide (sort_key_le a.sort_by_date b.sort_by_date)

/-- One daily quotation record of the BCB (PTAX) response: the
`cotacaoCompra` (buy) and `cotacaoVenda` (sell) quotes. -/
structure Quote where
  cotacaoCompra : ℚ
  cotacaoVenda : ℚ
deriving DecidableEq, Repr

/-- The JSON payload of one PTAX request: `{"value": [...]}`.  An empty
`value` list means the date is a non-business day. -/
structure QuotationData where
  value : List Quote
deriving DecidableEq, Repr

/-- Model of the module-level dict `BCB_CACHE_FOR_EUR_REQUESTS`: an
association list from (resolved) date keys to cached payloads; prepending
models `dict[k] = v`. -/
def BCBCache := List (Date × QuotationData)

/-- The `while not done` loop of `_get_eur_quotation_data_for_date`, with
explicit fuel for the unbounded walk.  Each recursion step performs one
`requests.get` (one application of `source`); the returned `Nat` counts those
external queries.  Note the loop caches the payload under the date held by
the loop variable AFTER the backward adjustment, so an empty payload for day
`d` is stored under the key `d - 1 day`. -/
def get_eur_quotation_data_loop (source : Date → QuotationData) :
    Nat → Date → BCBCache → Option (QuotationData × BCBCache × Nat)
  | 0, _, _ => none
  | Nat.succ fuel, date, cache =>
    let result := source date
    if result.value.length = 0 then
      let new_date := yesterday_str date
      match get_eur_quotation_data_loop source fuel new_date ((new_date, result) :: cache) with
      | none => none
      | some (r, c, n) => some (r, c, n + 1)
    else
      some (result, (date, result) :: cache, 1)

/-- Mirrors `_get_eur_quotation_data_for_date`: consult the cache once for the
requested date; on a miss, run the backward-walking query loop. -/
def get_eur_quotation_data_for_date (source : Date → QuotationData)
    (fuel : Nat) (date : Date) (cache : BCBCache) :
    Option (QuotationData × BCBCache × Nat) :=
  match List.lookup date cache with
  | some result => some (result, cache, 0)
  | none => get_eur_quotation_data_loop source fuel date cache

/-- Mirrors `get_price_for_buying_eur_at_date`: index `["value"][0]` of the
resolved payload and read `cotacaoCompra`.  Indexing an empty `value` list
(an `IndexError` in the source) yields `none`. -/
def get_price_for_buying_eur_at_date (source : Date → QuotationData)
    (fuel : Nat) (date : Date) (cache : BCBCache) : Option (ℚ × BCBCache × Nat) :=
  match get_eur_quotation_data_for_date source fuel date cache with
  | some (result, c, n) =>
    match result.value.head? with
    | some q => some (q.cotacaoCompra, c, n)
    | none => none
  | none => none

/-- Mirrors `get_price_for_selling_eur_at_date` (`cotacaoVenda` column). -/
def get_price_for_selling_eur_at_date (source : Date → QuotationData)
    (fuel : Nat) (date : Date) (cache : BCBCache) : Option (ℚ × BCBCache × Nat) :=
  match get_eur_quotation_data_for_date source fuel date cache with
  | some (result, c, n) =>
    match result.value.head? with
    | some q => some (q.cotacaoVenda, c, n)
    | none => none
  | none => none

/-- The body of the `for transaction in registry_of_transactions` loop of
`process_transactions`, as a function of the three running aggregates.  The
rate lookups `get_price_for_{buying,selling}_eur_at_date` are abstracted as
rate oracles `buy_rate`/`sell_rate` (the source reaches the network there).
Errors (`Except.error`): the `raise ValueError` branch for an operation
outside {BUY, SELL}, arithmetic on a missing (`None`) raw field (a Python
`TypeError`), and division by zero.  All of them abort before any field of
the current entry is written. -/
def process_transaction_step (buy_rate sell_rate : Date → ℚ)
    (transaction : StockTransactionEntry) (total_qty total_cost_brl current_avg_price : ℚ) :
    Except String (StockTransactionEntry × ℚ × ℚ × ℚ) :=
  match transaction.op_type with
  | some OpType.BUY =>
    match transaction.qty, transaction.price_eur with
    | some qty, some price_eur =>
      let buying_price_eur := buy_rate transaction.date
      let total_qty' := total_qty + qty
      let price_brl := price_eur * qty * buying_price_eur
      let total_cost_brl' := total_cost_brl + price_brl
      if total_qty' = 0 then Except.error "ZeroDivisionError"
      else
        let current_avg_price' := total_cost_brl' / total_qty'
        Except.ok
          ({ transaction with
              cur_conv_rate := some buying_price_eur
              total_qty := some total_qty'
              price_brl := some price_brl
              total_cost_brl := some total_cost_brl'
              avg_price := some current_avg_price' },
            total_qty', total_cost_brl', current_avg_price')
    | _, _ => Except.error "TypeError"
  | some OpType.SELL =>
    match transaction.qty, transaction.price_eur, transaction.net_proceeds with
    | some qty, some price_eur, some net_proceeds =>
      let selling_price_eur := sell_rate transaction.date
      let total_qty' := total_qty - qty
      let total_cost_brl' := total_cost_brl - qty * current_avg_price
      let profit := selling_price_eur * net_proceeds - qty * current_avg_price
      Except.ok
        ({ transaction with
            cur_conv_rate := some selling_price_eur
            total_qty := some total_qty'
            profit := some profit
            avg_price := some current_avg_price
            price_brl := some (price_eur * selling_price_eur)
            tax := some (profit * TAX_ON_PROFIT_PERCENTAGE) },
          total_qty', total_cost_brl', current_avg_price)
    | _, _, _ => Except.error "TypeError"
  | none => Except.error "Unsupported Enum in OpType"

/-- The whole `for` loop of `process_transactions`.  Returns the list as the
caller observes it after the loop (mutation is in place: already-visited
entries keep their filled fields, the failing entry and everything after it
are untouched) together with the exception, if one was raised. -/
def process_transactions_loop (buy_rate sell_rate : Date → ℚ) :
    List StockTransactionEntry → ℚ → ℚ → ℚ → List StockTransactionEntry × Option String
  | [], _, _, _ => ([], none)
  | transaction :: rest, total_qty, total_cost_brl, current_avg_price =>
    match process_transaction_step buy_rate sell_rate transaction
        total_qty total_cost_brl current_avg_price with
    | Except.error msg => (transaction :: rest, some msg)
    | Except.ok (transaction', tq', tc', ap') =>
      let result := process_transactions_loop buy_rate sell_rate rest tq' tc' ap'
      (transaction' :: result.1, result.2)

/-- The running aggregate state `(total_qty, total_cost_brl, current_avg_price)`
after a list of entries, `none` if the loop raises.  (Bookkeeping companion of
`process_transactions_loop`; the Python locals are not otherwise observable.) -/
def process_transactions_state (buy_rate sell_rate : Date → ℚ) :
    List StockTransactionEntry → ℚ → ℚ → ℚ → Option (ℚ × ℚ × ℚ)
  | [], total_qty, total_cost_brl, current_avg_price =>
      some (total_qty, total_cost_brl, current_avg_price)
  | transaction :: rest, total_qty, total_cost_brl, current_avg_price =>
    match process_transaction_step buy_rate sell_rate transaction
        total_qty total_cost_brl current_avg_price with
    | Except.error _ => none
    | Except.ok (_, tq', tc', ap') =>
      process_transactions_state buy_rate sell_rate rest tq' tc' ap'

/-- Mirrors `process_transactions`: aggregates seeded at (0, 0, 0); returns
the (mutated) registry, or propagates the exception. -/
def process_transactions (buy_rate sell_rate : Date → ℚ)
    (registry_of_transactions : List StockTransactionEntry) :
    Except String (List StockTransactionEntry) :=
  match process_transactions_loop buy_rate sell_rate registry_of_transactions 0 0 0 with
  | (out, none) => Except.ok out
  | (_, some msg) => Except.error msg

/-- Builds the Ledger Entry for one row of the buy-loop of
`merge_transactional_data`: `StockTransactionEntry(date, OpType.BUY, qty,
None, None, EUR_TO_BRL, None, price_eur=price_eur)` (all remaining
constructor parameters default to `None`). -/
def entry_of_buy_record (r : Date × ℚ × ℚ) : StockTransactionEntry :=
  ⟨r.1, some OpType.BUY, some r.2.2, none, none, some CurrencyConversionType.EUR_TO_BRL,
    none, some r.2.1, none, none, none, none, none⟩

/-- Builds the Ledger Entry for one row of the sell-loop of
`merge_transactional_data`: `StockTransactionEntry(date, OpType.SELL, qty,
None, None, BRL_TO_EUR, None, price_eur=execution_price,
net_proceeds=net_proceeds)`. -/
def entry_of_sell_record (r : Date × ℚ × ℚ × ℚ) : StockTransactionEntry :=
  ⟨r.1, some OpType.SELL, some r.2.2.1, none, none, some CurrencyConversionType.BRL_TO_EUR,
    none, some r.2.1, none, some r.2.2.2, none, none, none⟩

/-- Mirrors `merge_transactional_data(buy_transactional_data,
sell_transactional_data, sort=True)`: append one entry per buy record, then
one per sell record, then (when `sort`) the stable in-place
`registry_of_transactions.sort(key=StockTransactionEntry.sort_by_date)`,
modelled by the stable `List.mergeSort`. -/
def merge_transactional_data (buy_transactional_data : List (Date × ℚ × ℚ))
    (sell_transactional_data : List (Date × ℚ × ℚ × ℚ)) (sort : Bool := true) :
    List StockTransactionEntry :=
  let registry_of_transactions :=
    buy_transactional_data.map entry_of_buy_record
      ++ sell_transactional_data.map entry_of_sell_record
  if sort then registry_of_transactions.mergeSort sort_by_date_le
  else registry_of_transactions

/-- One spreadsheet cell as written by `df.to_excel` and read back by
`pd.read_excel`: a string, a number, a date, or an empty cell (Python `None`
/ pandas `NaN`; both render as an absent value, and `pd.isna` treats them
alike). -/
inductive ExcelCell where
  | str (s : String)
  | num (q : ℚ)
  | date (d : Date)
  | empty
deriving DecidableEq, Repr

/-- One row of the persisted workbook, one named column per
`StockTransactionEntry` attribute that `save_stock_entries_to_excel` writes
(`entry.__dict__`), including the dynamically added `total_cost_brl`. -/
structure ExcelRow where
  date : ExcelCell
  op_type : ExcelCell
  qty : ExcelCell
  total_qty : ExcelCell
  cur_conv_rate : ExcelCell
  cur_conv_type : ExcelCell
  avg_price : ExcelCell
  price_eur : ExcelCell
  price_brl : ExcelCell
  net_proceeds : ExcelCell
  profit : ExcelCell
  tax : ExcelCell
  total_cost_brl : ExcelCell
deriving DecidableEq, Repr

/-- A numeric attribute as it lands in a cell: `None` becomes an empty cell. -/
def cell_of_opt_num : Option ℚ → ExcelCell
  | none => ExcelCell.empty
  | some q => ExcelCell.num q

/-- A cell read back as a numeric attribute (an empty cell reads as absent). -/
def num_of_cell : ExcelCell → Option ℚ
  | ExcelCell.num q => some q
  | _ => none

/-- Python `str(OpType.BUY) = 'OpType.BUY'` (the default `Enum.__str__`),
which is what pandas writes into the cell. -/
def str_of_op_type : OpType → String
  | OpType.BUY => "OpType.BUY"
  | OpType.SELL => "OpType.SELL"

/-- Python `str` of a `CurrencyConversionType` member. -/
def str_of_conv_type : CurrencyConversionType → String
  | CurrencyConversionType.EUR_TO_BRL => "CurrencyConversionType.EUR_TO_BRL"
  | CurrencyConversionType.BRL_TO_EUR => "CurrencyConversionType.BRL_TO_EUR"

/-- An enum attribute as it lands in a cell (absent tags stay empty). -/
def cell_of_op_type : Option OpType → ExcelCell
  | none => ExcelCell.empty
  | some o => ExcelCell.str (str_of_op_type o)

/-- An enum attribute as it lands in a cell (absent tags stay empty). -/
def cell_of_conv_type : Option CurrencyConversionType → ExcelCell
  | none => ExcelCell.empty
  | some o => ExcelCell.str (str_of_conv_type o)

/-- Mirrors `save_stock_entries_to_excel` for one entry: `entry.__dict__` as
one row.  Every attribute is written, `total_cost_brl` included. -/
def row_of_entry (entry : StockTransactionEntry) : ExcelRow :=
  ⟨ExcelCell.date entry.date, cell_of_op_type entry.op_type, cell_of_opt_num entry.qty,
    cell_of_opt_num entry.total_qty, cell_of_opt_num entry.cur_conv_rate,
    cell_of_conv_type entry.cur_conv_type, cell_of_opt_num entry.avg_price,
    cell_of_opt_num entry.price_eur, cell_of_opt_num entry.price_brl,
    cell_of_opt_num entry.net_proceeds, cell_of_opt_num entry.profit,
    cell_of_opt_num entry.tax, cell_of_opt_num entry.total_cost_brl⟩

/-- Mirrors `save_stock_entries_to_excel`: one row per entry. -/
def save_stock_entries_to_excel (entries : List StockTransactionEntry) : List ExcelRow :=
  entries.map row_of_entry

/-- Strips a literal from the front of a character list, returning the
remainder (the regex capture) if the whole literal matches. -/
def chop_literal : List Char → List Char → Option (List Char)
  | [], s => some s
  | _ :: _, [] => none
  | p :: ps, c :: cs => if c = p then chop_literal ps cs else none

/-- A regex word character, `\w`. -/
def is_word_char (c : Char) : Bool := c.isAlphanum || c == '_'

/-- Mirrors `parse_enum(enum_class, value)` for a cell `value`:
`re.match(rf'^{enum_name}\.(\w+)$', value)` followed by the member lookup
`enum_class[member_name]`.  A non-string cell (`None`/number/date), a string
not of the shape `EnumName.<word>`, and an unknown member name all yield
`None` — never an exception. -/
def parse_enum (enum_name : String) {α : Type} (members : List (String × α))
    (value : ExcelCell) : Option α :=
  match value with
  | ExcelCell.str s =>
    match chop_literal (enum_name.toList ++ ['.']) s.toList with
    | some member_name =>
      if !member_name.isEmpty && member_name.all is_word_char then
        List.lookup (String.mk member_name) members
      else none
    | none => none
  | _ => none

/-- `parse_enum(OpType, value)`. -/
def parse_enum_op_type (value : ExcelCell) : Option OpType :=
  parse_enum "OpType" [("BUY", OpType.BUY), ("SELL", OpType.SELL)] value

/-- `parse_enum(CurrencyConversionType, value)`. -/
def parse_enum_conv_type (value : ExcelCell) : Option CurrencyConversionType :=
  parse_enum "CurrencyConversionType"
    [("EUR_TO_BRL", CurrencyConversionType.EUR_TO_BRL),
     ("BRL_TO_EUR", CurrencyConversionType.BRL_TO_EUR)] value

/-- Mirrors the row-reconstruction loop of `load_stock_entries_from_excel`.
Only the twelve `__init__` parameters are read back; the `total_cost_brl`
column, even when present, is never consulted, so the rebuilt entry lacks
that attribute (`none`).  The date branch for a non-date cell is unreachable
for rows produced by `save_stock_entries_to_excel`. -/
def entry_of_row (row : ExcelRow) : StockTransactionEntry :=
  ⟨(match row.date with | ExcelCell.date d => d | _ => ⟨0, 1, 1⟩),
    parse_enum_op_type row.op_type,
    num_of_cell row.qty,
    num_of_cell row.total_qty,
    num_of_cell row.cur_conv_rate,
    parse_enum_conv_type row.cur_conv_type,
    num_of_cell row.avg_price,
    num_of_cell row.price_eur,
    num_of_cell row.price_brl,
    num_of_cell row.net_proceeds,
    num_of_cell row.profit,
    num_of_cell row.tax,
    none⟩

/-- Mirrors `load_stock_entries_from_excel`: one entry per row. -/
def load_stock_entries_from_excel (rows : List ExcelRow) : List StockTransactionEntry :=
  rows.map entry_of_row

theorem process_transaction_step_ok
    {br sr : Date → ℚ} {t t' : StockTransactionEntry} {tq tc ap tq' tc' ap' : ℚ}
    (h : process_transaction_step br sr t tq tc ap = Except.ok (t', tq', tc', ap')) :
    t'.op_type = t.op_type ∧ t'.qty = t.qty ∧
    (∃ q, t.qty = some q) ∧
    t'.total_qty = some tq' ∧
    t'.avg_price = some ap' ∧
    tq' = tq + (if t.op_type = some OpType.BUY then t.qty.getD 0 else -(t.qty.getD 0)) ∧
    (t.op_type = some OpType.BUY ∨ t.op_type = some OpType.SELL) ∧
    (t.op_type = some OpType.SELL →
      ap' = ap ∧ ∃ p, t'.profit = some p ∧ t'.tax = some (p * TAX_ON_PROFIT_PERCENTAGE)) := by
  cases hop : t.op_type with
  | none => simp [process_transaction_step, hop] at h
  | some op =>
    cases op with
    | BUY =>
      cases hq : t.qty with
      | none => simp [process_transaction_step, hop, hq] at h
      | some q =>
        cases hpe : t.price_eur with
        | none => simp [process_transaction_step, hop, hq, hpe] at h
        | some pe =>
          simp only [process_transaction_step, hop, hq, hpe] at h
          split at h
          · exact absurd h (by simp)
          · simp only [Except.ok.injEq, Prod.mk.injEq] at h
            obtain ⟨ht', htq, htc, hap⟩ := h
            subst ht' htq htc hap
            refine ⟨rfl, rfl, ⟨q, rfl⟩, rfl, rfl, by simp [hq], Or.inl rfl, ?_⟩
            intro hsell
            simp [hop] at hsell
    | SELL =>
      cases hq : t.qty with
      | none => simp [process_transaction_step, hop, hq] at h
      | some q =>
        cases hpe : t.price_eur with
        | none => simp [process_transaction_step, hop, hq, hpe] at h
        | some pe =>
          cases hnp : t.net_proceeds with
          | none => simp [process_transaction_step, hop, hq, hpe, hnp] at h
          | some np =>
            simp only [process_transaction_step, hop, hq, hpe, hnp] at h
            simp only [Except.ok.injEq, Prod.mk.injEq] at h
            obtain ⟨ht', htq, htc, hap⟩ := h
            subst ht' htq htc hap
            refine ⟨rfl, rfl, ⟨q, rfl⟩, rfl, rfl, by simp [hop, hq]; ring, Or.inr rfl, ?_⟩
            intro _
            exact ⟨rfl, ⟨_, rfl, rfl⟩⟩

theorem process_transactions_loop_spec (br sr : Date → ℚ) :
    ∀ (l out : List StockTransactionEntry) (tq tc ap : ℚ),
    process_transactions_loop br sr l tq tc ap = (out, none) →
    out.length = l.length ∧
    ∀ i, i < out.length →
      ((out.getD i dummyEntry).op_type = some OpType.BUY ∨
        (out.getD i dummyEntry).op_type = some OpType.SELL) ∧
      (∃ q, (out.getD i dummyEntry).qty = some q) ∧
      (∃ a, (out.getD i dummyEntry).avg_price = some a) ∧
      (out.getD i dummyEntry).total_qty = some
        ((if i = 0 then tq else ((out.getD (i - 1) dummyEntry).total_qty).getD 0) +
          (if (out.getD i dummyEntry).op_type = some OpType.BUY
            then ((out.getD i dummyEntry).qty).getD 0
            else -(((out.getD i dummyEntry).qty).getD 0))) ∧
      ((out.getD i dummyEntry).op_type = some OpType.SELL →
        (out.getD i dummyEntry).avg_price = some
          (if i = 0 then ap else ((out.getD (i - 1) dummyEntry).avg_price).getD 0) ∧
        ∃ p, (out.getD i dummyEntry).profit = some p ∧
          (out.getD i dummyEntry).tax = some (p * TAX_ON_PROFIT_PERCENTAGE)) := by
  intro l
  induction l with
  | nil =>
    intro out tq tc ap h
    simp only [process_transactions_loop, Prod.mk.injEq] at h
    obtain ⟨hout, -⟩ := h
    subst hout
    exact ⟨rfl, fun i hi => absurd hi (by simp)⟩
  | cons t rest ih =>
    intro out tq tc ap h
    simp only [process_transactions_loop] at h
    cases hstep : process_transaction_step br sr t tq tc ap with
    | error msg =>
      rw [hstep] at h
      simp at h
    | ok res =>
      obtain ⟨t', tq', tc', ap'⟩ := res
      rw [hstep] at h
      simp only [Prod.mk.injEq] at h
      obtain ⟨hout, hrest2⟩ := h
      have hrest : process_transactions_loop br sr rest tq' tc' ap' =
          ((process_transactions_loop br sr rest tq' tc' ap').1, none) := by
        rw [← hrest2]
      obtain ⟨hlen, hidx⟩ := ih (process_transactions_loop br sr rest tq' tc' ap').1 tq' tc' ap' hrest
      obtain ⟨sop, sqty, sq, stq, sap, stq_eq, sdom, ssell⟩ := process_transaction_step_ok hstep
      subst hout
      constructor
      · simp [hlen]
      · intro i hi
        cases i with
        | zero =>
          simp only [List.getD_cons_zero]
          refine ⟨by rw [sop]; exact sdom, by rw [sqty]; exact sq, ⟨ap', sap⟩, ?_, ?_⟩
          · rw [stq, stq_eq, sop, sqty]
            simp
          · intro hsell
            rw [sop] at hsell
            obtain ⟨hap', hp⟩ := ssell hsell
            refine ⟨?_, hp⟩
            rw [sap, hap']
            simp
        | succ j =>
          have hj : j < (process_transactions_loop br sr rest tq' tc' ap').1.length := by
            simp at hi
            omega
          have hcur : (t' :: (process_transactions_loop br sr rest tq' tc' ap').1).getD (j + 1)
              dummyEntry = ((process_transactions_loop br sr rest tq' tc' ap').1).getD j
              dummyEntry := by
            simp [List.getD_cons_succ]
          obtain ⟨iop, iqty, iap, itq, isell⟩ := hidx j hj
          rw [hcur]
          refine ⟨iop, iqty, iap, ?_, ?_⟩
          · rw [itq]
            congr 1
            cases j with
            | zero => simp [stq]
            | succ k => simp
          · intro hsell
            obtain ⟨havg, hp⟩ := isell hsell
            refine ⟨?_, hp⟩
            rw [havg]
            congr 1
            cases j with
            | zero => simp [sap]
            | succ k => simp

theorem process_transactions_ok_loop {br sr : Date → ℚ}
    {l out : List StockTransactionEntry}
    (h : process_transactions br sr l = Except.ok out) :
    process_transactions_loop br sr l 0 0 0 = (out, none) := by
  unfold process_transactions at h
  rcases hL : process_transactions_loop br sr l 0 0 0 with ⟨o, e⟩
  rw [hL] at h
  cases e with
  | none =>
    simp only [Except.ok.injEq] at h
    rw [h]
  | some msg => simp at h

/-- The PURCHASE leg of the spec's example scenario: 10 shares at 20.00
foreign on 2023-01-02. -/
def c1_buy_entry : StockTransactionEntry :=
  ⟨⟨2023, 1, 2⟩, some OpType.BUY, some 10, none, none, some CurrencyConversionType.EUR_TO_BRL,
    none, some 20, none, none, none, none, none⟩

/-- The SALE leg of the spec's example scenario: 4 shares on 2023-01-03 with
net proceeds 76 foreign (the execution price 19 is needed by the source's
`price_brl` line but plays no role in the checked quantities). -/
def c1_sell_entry : StockTransactionEntry :=
  ⟨⟨2023, 1, 3⟩, some OpType.SELL, some 4, none, none, some CurrencyConversionType.BRL_TO_EUR,
    none, some 19, none, some 76, none, none, none⟩

/-- The example-scenario ledger. -/
def c1_ledger : List StockTransactionEntry := [c1_buy_entry, c1_sell_entry]

/-- Rate oracle: buy-rate 5.00 on the purchase date. -/
def c1_buy_rate : Date → ℚ := fun d => if d = ⟨2023, 1, 2⟩ then 5 else 0

/-- Rate oracle: sell-rate 5.20 on the sale date. -/
def c1_sell_rate : Date → ℚ := fun d => if d = ⟨2023, 1, 3⟩ then 26 / 5 else 0

/-- The processed example-scenario ledger, as `process_transactions` emits it. -/
def c1_processed : List StockTransactionEntry :=
  [⟨⟨2023, 1, 2⟩, some OpType.BUY, some 10, some 10, some 5,
      some CurrencyConversionType.EUR_TO_BRL, some 100, some 20, some 1000, none, none, none,
      some 1000⟩,
    ⟨⟨2023, 1, 3⟩, some OpType.SELL, some 4, some 6, some (26 / 5),
      some CurrencyConversionType.BRL_TO_EUR, some 100, some 19, some (494 / 5), some 76,
      some (-24 / 5), some (-18 / 25), none⟩]

theorem c1_process_eq :
    process_transactions c1_buy_rate c1_sell_rate c1_ledger = Except.ok c1_processed := by
  simp only [process_transactions, process_transactions_loop, process_transaction_step,
    c1_ledger, c1_buy_entry, c1_sell_entry, c1_buy_rate, c1_sell_rate, c1_processed,
    TAX_ON_PROFIT_PERCENTAGE]
  norm_num

/-- C1: for the ledger PURCHASE(10 @ 20.00) then SALE(4, net 76) with
buy-rate 5.00 and sell-rate 5.20, processing from the (0, 0, 0) seed writes
total_cost_local = 1000 and average cost basis 100 on the purchase entry, and
realized profit −4.8 (= −24/5), tax −0.72 (= −18/25) and running quantity 6
on the sale entry. -/
theorem C1_example_scenario :
    process_transactions c1_buy_rate c1_sell_rate c1_ledger = Except.ok c1_processed ∧
    (c1_processed.getD 0 dummyEntry).total_cost_brl = some 1000 ∧
    (c1_processed.getD 0 dummyEntry).avg_price = some 100 ∧
    (c1_processed.getD 1 dummyEntry).profit = some (-24 / 5) ∧
    (c1_processed.getD 1 dummyEntry).tax = some (-18 / 25) ∧
    (c1_processed.getD 1 dummyEntry).total_qty = some 6 ∧
    (-24 / 5 : ℚ) = -(48 / 10) ∧ (-18 / 25 : ℚ) = -(72 / 100) := by
  exact ⟨c1_process_eq, rfl, rfl, rfl, rfl, rfl, by norm_num, by norm_num⟩

/-- C4: in one processed pass, `average_cost_basis` changes only on PURCHASE
entries: every SALE entry carries the average of the entry before it (the
seed 0 when the sale is first), and the written average is constant across
any run of consecutive SALE entries. -/
theorem C4_average_price_carry (br sr : Date → ℚ)
    (l out : List StockTransactionEntry)
    (h : process_transactions br sr l = Except.ok out) :
    (∀ i, i < out.length →
      (out.getD i dummyEntry).op_type = some OpType.SELL →
      (out.getD i dummyEntry).avg_price =
        some (if i = 0 then 0 else ((out.getD (i - 1) dummyEntry).avg_price).getD 0)) ∧
    (∀ i j, i ≤ j → j < out.length →
      (∀ k, i < k → k ≤ j → (out.getD k dummyEntry).op_type = some OpType.SELL) →
      (out.getD j dummyEntry).avg_price = (out.getD i dummyEntry).avg_price) := by
  have hl := process_transactions_ok_loop h
  obtain ⟨hlen, hidx⟩ := process_transactions_loop_spec br sr l out 0 0 0 hl
  constructor
  · intro i hi hsell
    exact ((hidx i hi).2.2.2.2 hsell).1
  · intro i j hij
    induction j, hij using Nat.le_induction with
    | base => intro _ _; rfl
    | succ j hij ihj =>
      intro hj hrun
      have hjlt : j < out.length := by omega
      have hsell : (out.getD (j + 1) dummyEntry).op_type = some OpType.SELL :=
        hrun (j + 1) (by omega) (le_refl _)
      have havg := ((hidx (j + 1) hj).2.2.2.2 hsell).1
      obtain ⟨a, ha⟩ := (hidx j hjlt).2.2.1
      have h1 : (out.getD (j + 1) dummyEntry).avg_price = (out.getD j dummyEntry).avg_price := by
        rw [havg, Nat.add_sub_cancel, if_neg (by omega : ¬(j + 1 = 0)), ha]
        rfl
      rw [h1]
      exact ihj hjlt (fun k hk1 hk2 => hrun k hk1 (by omega))

/-- C4 witness: the sale of the example scenario (index 1) carries the
average written by the purchase at index 0. -/
theorem C4_average_price_carry_witness :
    process_transactions c1_buy_rate c1_sell_rate c1_ledger = Except.ok c1_processed ∧
    (c1_processed.getD 1 dummyEntry).avg_price =
      some (if 1 = 0 then 0 else ((c1_processed.getD (1 - 1) dummyEntry).avg_price).getD 0) :=
  ⟨c1_process_eq, (C4_average_price_carry c1_buy_rate c1_sell_rate c1_ledger c1_processed
    c1_process_eq).1 1 (by decide) rfl⟩

/-- A one-entry ledger that sells 5 shares out of empty holdings. -/
def c5_oversell_entry : StockTransactionEntry :=
  ⟨⟨2023, 2, 1⟩, some OpType.SELL, some 5, none, none, some CurrencyConversionType.BRL_TO_EUR,
    none, some 10, none, some 50, none, none, none⟩

/-- Flat rate oracle for the oversell ledger. -/
def c5_rate : Date → ℚ := fun _ => 5

/-- Processing the oversell ledger succeeds and records holdings −5. -/
def c5_processed : List StockTransactionEntry :=
  [⟨⟨2023, 2, 1⟩, some OpType.SELL, some 5, some (-5), some 5,
      some CurrencyConversionType.BRL_TO_EUR, some 0, some 10, some 50, some 50, some 250,
      some (75 / 2), none⟩]

theorem c5_process_eq :
    process_transactions c5_rate c5_rate [c5_oversell_entry] = Except.ok c5_processed := by
  simp only [process_transactions, process_transactions_loop, process_transaction_step,
    c5_oversell_entry, c5_rate, c5_processed, TAX_ON_PROFIT_PERCENTAGE]
  norm_num

/-- C5: with the running quantity seeded at 0, every processed entry records
`running_quantity = previous + qty` on PURCHASE and `previous − qty` on SALE;
the quantity may go negative when sales exceed recorded holdings, and the
pass succeeds (no error) in that case. -/
theorem C5_running_quantity :
    (∀ (br sr : Date → ℚ) (l out : List StockTransactionEntry),
      process_transactions br sr l = Except.ok out →
      ∀ i, i < out.length →
        (out.getD i dummyEntry).total_qty = some
          ((if i = 0 then 0 else ((out.getD (i - 1) dummyEntry).total_qty).getD 0) +
            (if (out.getD i dummyEntry).op_type = some OpType.BUY
              then ((out.getD i dummyEntry).qty).getD 0
              else -(((out.getD i dummyEntry).qty).getD 0)))) ∧
    (process_transactions c5_rate c5_rate [c5_oversell_entry] = Except.ok c5_processed ∧
      (c5_processed.getD 0 dummyEntry).total_qty = some (-5) ∧ (-5 : ℚ) < 0) := by
  constructor
  · intro br sr l out h i hi
    exact ((process_transactions_loop_spec br sr l out 0 0 0
      (process_transactions_ok_loop h)).2 i hi).2.2.2.1
  · exact ⟨c5_process_eq, rfl, by norm_num⟩

/-- C5 witness: the recurrence instantiated at the sale (index 1) of the
example scenario. -/
theorem C5_running_quantity_witness :
    process_transactions c1_buy_rate c1_sell_rate c1_ledger = Except.ok c1_processed ∧
    (c1_processed.getD 1 dummyEntry).total_qty = some
      ((if 1 = 0 then 0 else ((c1_processed.getD (1 - 1) dummyEntry).total_qty).getD 0) +
        (if (c1_processed.getD 1 dummyEntry).op_type = some OpType.BUY
          then ((c1_processed.getD 1 dummyEntry).qty).getD 0
          else -(((c1_processed.getD 1 dummyEntry).qty).getD 0))) :=
  ⟨c1_process_eq, C5_running_quantity.1 c1_buy_rate c1_sell_rate c1_ledger c1_processed
    c1_process_eq 1 (by decide)⟩

/-- C9: every processed SALE entry's tax is exactly
`profit * TAX_ON_PROFIT_PERCENTAGE` (15%), applied unconditionally; the
example scenario shows a negative profit taxed at the same rate, with no
floor at zero. -/
theorem C9_tax_is_fifteen_percent_unconditionally :
    (∀ (br sr : Date → ℚ) (l out : List StockTransactionEntry),
      process_transactions br sr l = Except.ok out →
      ∀ e ∈ out, e.op_type = some OpType.SELL →
        ∃ p, e.profit = some p ∧ e.tax = some (p * TAX_ON_PROFIT_PERCENTAGE)) ∧
    (process_transactions c1_buy_rate c1_sell_rate c1_ledger = Except.ok c1_processed ∧
      (c1_processed.getD 1 dummyEntry).profit = some (-24 / 5) ∧
      (c1_processed.getD 1 dummyEntry).tax = some ((-24 / 5) * TAX_ON_PROFIT_PERCENTAGE) ∧
      (-24 / 5 : ℚ) < 0 ∧ ((-24 / 5 : ℚ) * TAX_ON_PROFIT_PERCENTAGE) < 0) := by
  constructor
  · intro br sr l out h e hmem hsell
    obtain ⟨i, hi, hget⟩ := List.getElem_of_mem hmem
    have hgd : out.getD i dummyEntry = e := by
      rw [List.getD_eq_getElem _ _ hi, hget]
    have := ((process_transactions_loop_spec br sr l out 0 0 0
      (process_transactions_ok_loop h)).2 i hi).2.2.2.2
    rw [hgd] at this
    exact (this hsell).2
  · refine ⟨c1_process_eq, rfl, ?_, by norm_num, ?_⟩
    · show some (-18 / 25 : ℚ) = _
      norm_num [TAX_ON_PROFIT_PERCENTAGE]
    · rw [TAX_ON_PROFIT_PERCENTAGE]
      norm_num

/-- C9 witness: the tax relation instantiated at the example scenario's sale. -/
theorem C9_tax_witness :
    ∃ p, (c1_processed.getD 1 dummyEntry).profit = some p ∧
      (c1_processed.getD 1 dummyEntry).tax = some (p * TAX_ON_PROFIT_PERCENTAGE) :=
  C9_tax_is_fifteen_percent_unconditionally.1 c1_buy_rate c1_sell_rate c1_ledger c1_processed
    c1_process_eq (c1_processed.getD 1 dummyEntry)
    (List.mem_cons_of_mem _ (List.mem_cons_self _ _)) rfl

theorem process_transactions_loop_append (br sr : Date → ℚ) :
    ∀ (l1 l2 : List StockTransactionEntry) (tq tc ap : ℚ)
      (o1 : List StockTransactionEntry) (s1 : ℚ × ℚ × ℚ),
    process_transactions_loop br sr l1 tq tc ap = (o1, none) →
    process_transactions_state br sr l1 tq tc ap = some s1 →
    process_transactions_loop br sr (l1 ++ l2) tq tc ap =
      (o1 ++ (process_transactions_loop br sr l2 s1.1 s1.2.1 s1.2.2).1,
        (process_transactions_loop br sr l2 s1.1 s1.2.1 s1.2.2).2) := by
  intro l1
  induction l1 with
  | nil =>
    intro l2 tq tc ap o1 s1 h1 h2
    simp only [process_transactions_loop, Prod.mk.injEq] at h1
    simp only [process_transactions_state, Option.some.injEq] at h2
    obtain ⟨ho, -⟩ := h1
    subst ho
    subst h2
    simp
  | cons t rest ih =>
    intro l2 tq tc ap o1 s1 h1 h2
    simp only [process_transactions_loop] at h1
    simp only [process_transactions_state] at h2
    cases hstep : process_transaction_step br sr t tq tc ap with
    | error msg =>
      rw [hstep] at h1
      simp at h1
    | ok res =>
      obtain ⟨t', tq', tc', ap'⟩ := res
      rw [hstep] at h1 h2
      simp only [Prod.mk.injEq] at h1
      obtain ⟨ho, hnone⟩ := h1
      have hr : process_transactions_loop br sr rest tq' tc' ap' =
          ((process_transactions_loop br sr rest tq' tc' ap').1, none) := by
        rw [← hnone]
      have hthis := ih l2 tq' tc' ap' (process_transactions_loop br sr rest tq' tc' ap').1 s1 hr h2
      calc process_transactions_loop br sr ((t :: rest) ++ l2) tq tc ap
          = (t' :: (process_transactions_loop br sr (rest ++ l2) tq' tc' ap').1,
              (process_transactions_loop br sr (rest ++ l2) tq' tc' ap').2) := by
            rw [List.cons_append]
            simp only [process_transactions_loop, hstep]
        _ = (o1 ++ (process_transactions_loop br sr l2 s1.1 s1.2.1 s1.2.2).1,
              (process_transactions_loop br sr l2 s1.1 s1.2.1 s1.2.2).2) := by
            rw [hthis, ← ho]
            simp

/-- C7 (amended): an entry whose operation is outside {BUY, SELL} makes
`process_transactions` abort at that entry with the `ValueError` of the
`else` branch, propagated immediately (no retry) and with no result list;
the failing entry and every entry after it are left untouched — but the
entries already visited keep the computed fields that were written into them
in place before the abort. -/
theorem C7_unsupported_op_aborts (br sr : Date → ℚ)
    (pre post preOut : List StockTransactionEntry) (e : StockTransactionEntry)
    (tq1 tc1 ap1 : ℚ)
    (hpre : process_transactions_loop br sr pre 0 0 0 = (preOut, none))
    (hstate : process_transactions_state br sr pre 0 0 0 = some (tq1, tc1, ap1))
    (hbad : e.op_type = none) :
    process_transactions br sr (pre ++ e :: post) =
      Except.error "Unsupported Enum in OpType" ∧
    process_transactions_loop br sr (pre ++ e :: post) 0 0 0 =
      (preOut ++ e :: post, some "Unsupported Enum in OpType") := by
  have hstep : process_transaction_step br sr e tq1 tc1 ap1 =
      Except.error "Unsupported Enum in OpType" := by
    unfold process_transaction_step
    rw [hbad]
  have hloop2 : process_transactions_loop br sr (e :: post) tq1 tc1 ap1 =
      (e :: post, some "Unsupported Enum in OpType") := by
    simp only [process_transactions_loop, hstep]
  have happ := process_transactions_loop_append br sr pre (e :: post) 0 0 0 preOut
    (tq1, tc1, ap1) hpre hstate
  rw [hloop2] at happ
  refine ⟨?_, happ⟩
  unfold process_transactions
  rw [happ]

/-- An entry whose persisted operation tag failed to parse (`op_type` is
`None`). -/
def c7_bad_entry : StockTransactionEntry :=
  ⟨⟨2023, 1, 5⟩, none, some 1, none, none, none, none, some 1, none, none, none, none, none⟩

theorem c7_pre_loop :
    process_transactions_loop c1_buy_rate c1_sell_rate [c1_buy_entry] 0 0 0 =
      ([c1_processed.getD 0 dummyEntry], none) := by
  simp only [process_transactions_loop, process_transaction_step, c1_buy_entry, c1_buy_rate,
    c1_processed, TAX_ON_PROFIT_PERCENTAGE]
  norm_num

theorem c7_pre_state :
    process_transactions_state c1_buy_rate c1_sell_rate [c1_buy_entry] 0 0 0 =
      some (10, 1000, 100) := by
  simp only [process_transactions_state, process_transaction_step, c1_buy_entry, c1_buy_rate,
    TAX_ON_PROFIT_PERCENTAGE]
  norm_num

/-- C7 counterexample: processing [good purchase, bad-op entry] aborts, yet
the purchase entry — already mutated in place before the abort — is left with
its computed fields filled (average cost basis 100, accumulated cost 1000),
contradicting "no computed field of any ledger entry is left filled by the
aborted pass". -/
theorem C7_counterexample :
    process_transactions c1_buy_rate c1_sell_rate ([c1_buy_entry] ++ c7_bad_entry :: []) =
      Except.error "Unsupported Enum in OpType" ∧
    process_transactions_loop c1_buy_rate c1_sell_rate
        ([c1_buy_entry] ++ c7_bad_entry :: []) 0 0 0 =
      ([c1_processed.getD 0 dummyEntry] ++ c7_bad_entry :: [],
        some "Unsupported Enum in OpType") ∧
    (c1_processed.getD 0 dummyEntry).avg_price = some 100 ∧
    (c1_processed.getD 0 dummyEntry).total_cost_brl = some 1000 ∧
    (c1_processed.getD 0 dummyEntry).avg_price ≠ none := by
  obtain ⟨h1, h2⟩ := C7_unsupported_op_aborts c1_buy_rate c1_sell_rate [c1_buy_entry] []
    [c1_processed.getD 0 dummyEntry] c7_bad_entry 10 1000 100 c7_pre_loop c7_pre_state rfl
  exact ⟨h1, h2, rfl, rfl, by simp [c1_processed]⟩

/-- C7 witness: the amended theorem applied to the concrete two-entry ledger
of the counterexample. -/
theorem C7_unsupported_op_aborts_witness :
    process_transactions_loop c1_buy_rate c1_sell_rate [c1_buy_entry] 0 0 0 =
      ([c1_processed.getD 0 dummyEntry], none) ∧
    process_transactions_state c1_buy_rate c1_sell_rate [c1_buy_entry] 0 0 0 =
      some (10, 1000, 100) ∧
    c7_bad_entry.op_type = none ∧
    (process_transactions c1_buy_rate c1_sell_rate ([c1_buy_entry] ++ c7_bad_entry :: []) =
        Except.error "Unsupported Enum in OpType" ∧
      process_transactions_loop c1_buy_rate c1_sell_rate
          ([c1_buy_entry] ++ c7_bad_entry :: []) 0 0 0 =
        ([c1_processed.getD 0 dummyEntry] ++ c7_bad_entry :: [],
          some "Unsupported Enum in OpType")) :=
  ⟨c7_pre_loop, c7_pre_state, rfl,
    C7_unsupported_op_aborts c1_buy_rate c1_sell_rate [c1_buy_entry] []
      [c1_processed.getD 0 dummyEntry] c7_bad_entry 10 1000 100 c7_pre_loop c7_pre_state rfl⟩

theorem lookup_cons_self {β : Type} (k : Date) (v : β) (l : List (Date × β)) :
    List.lookup k ((k, v) :: l) = some v := by
  simp [List.lookup]

theorem lookup_cons_ne {β : Type} {x k : Date} (v : β) (l : List (Date × β)) (h : x ≠ k) :
    List.lookup x ((k, v) :: l) = List.lookup x l := by
  simp only [List.lookup, beq_false_of_ne h]

theorem get_eur_quotation_data_loop_spec (source : Date → QuotationData) :
    ∀ (fuel : Nat) (date : Date) (cache : BCBCache) (res : QuotationData)
      (cache' : BCBCache) (n : Nat),
    get_eur_quotation_data_loop source fuel date cache = some (res, cache', n) →
    ∃ k, k < fuel ∧ n = k + 1 ∧
      res = source (yesterday_str^[k] date) ∧
      (source (yesterday_str^[k] date)).value ≠ [] ∧
      (∀ j, j < k → (source (yesterday_str^[j] date)).value = []) ∧
      List.lookup (yesterday_str^[k] date) cache' = some res ∧
      (∀ x, x ≠ yesterday_str^[k] date →
        (∀ j, 1 ≤ j → j ≤ k → x ≠ yesterday_str^[j] date) →
        List.lookup x cache' = List.lookup x cache) := by
  intro fuel
  induction fuel with
  | zero =>
    intro date cache res cache' n h
    simp [get_eur_quotation_data_loop] at h
  | succ f ih =>
    intro date cache res cache' n h
    simp only [get_eur_quotation_data_loop] at h
    by_cases hcase : (source date).value.length = 0
    · rw [if_pos hcase] at h
      cases hrec : get_eur_quotation_data_loop source f (yesterday_str date)
          ((yesterday_str date, source date) :: cache) with
      | none => rw [hrec] at h; simp at h
      | some trip =>
        obtain ⟨r, c, m⟩ := trip
        rw [hrec] at h
        simp only [Option.some.injEq, Prod.mk.injEq] at h
        obtain ⟨hr, hc, hn⟩ := h
        obtain ⟨k', hk'f, hm, hreq, hne, hemp, hlk, hunt⟩ :=
          ih (yesterday_str date) ((yesterday_str date, source date) :: cache) r c m hrec
        have hiter : ∀ j : Nat, yesterday_str^[j] (yesterday_str date) =
            yesterday_str^[j + 1] date :=
          fun j => (Function.iterate_succ_apply yesterday_str j date).symm
        refine ⟨k' + 1, by omega, by omega, ?_, ?_, ?_, ?_, ?_⟩
        · rw [← hiter, ← hreq, hr]
        · rw [← hiter]
          exact hne
        · intro j hj
          cases j with
          | zero =>
            simpa using List.length_eq_zero.mp hcase
          | succ j' =>
            rw [← hiter]
            exact hemp j' (by omega)
        · rw [← hiter, ← hc]
          rw [hr] at hlk
          exact hlk
        · intro x hx1 hx2
          have h1 : x ≠ yesterday_str^[k'] (yesterday_str date) := by
            rw [hiter]
            exact hx1
          have h2 : ∀ j, 1 ≤ j → j ≤ k' → x ≠ yesterday_str^[j] (yesterday_str date) := by
            intro j hj1 hj2
            rw [hiter]
            exact hx2 (j + 1) (by omega) (by omega)
          have h3 := hunt x h1 h2
          rw [← hc, h3]
          have hxyd : x ≠ yesterday_str date := by
            have := hx2 1 (le_refl 1) (by omega)
            simpa using this
          exact lookup_cons_ne _ _ hxyd
    · rw [if_neg hcase] at h
      simp only [Option.some.injEq, Prod.mk.injEq] at h
      obtain ⟨hr, hc, hn⟩ := h
      refine ⟨0, by omega, by omega, ?_, ?_, ?_, ?_, ?_⟩
      · rw [Function.iterate_zero_apply, hr]
      · rw [Function.iterate_zero_apply]
        intro hnil
        exact hcase (by rw [hnil]; rfl)
      · intro j hj
        omega
      · rw [Function.iterate_zero_apply, ← hc, ← hr]
        exact lookup_cons_self _ _ _
      · intro x hx1 hx2
        rw [Function.iterate_zero_apply] at hx1
        rw [← hc]
        exact lookup_cons_ne _ _ hx1

theorem get_eur_quotation_data_loop_cache_indep (source : Date → QuotationData) :
    ∀ (fuel : Nat) (date : Date) (c1 c2 : BCBCache) (r : QuotationData)
      (c1' : BCBCache) (n : Nat),
    get_eur_quotation_data_loop source fuel date c1 = some (r, c1', n) →
    ∃ c2', get_eur_quotation_data_loop source fuel date c2 = some (r, c2', n) := by
  intro fuel
  induction fuel with
  | zero =>
    intro date c1 c2 r c1' n h
    simp [get_eur_quotation_data_loop] at h
  | succ f ih =>
    intro date c1 c2 r c1' n h
    simp only [get_eur_quotation_data_loop] at h ⊢
    by_cases hcase : (source date).value.length = 0
    · rw [if_pos hcase] at h ⊢
      cases hrec : get_eur_quotation_data_loop source f (yesterday_str date)
          ((yesterday_str date, source date) :: c1) with
      | none => rw [hrec] at h; simp at h
      | some trip =>
        obtain ⟨r0, c0, m⟩ := trip
        rw [hrec] at h
        simp only [Option.some.injEq, Prod.mk.injEq] at h
        obtain ⟨hr, -, hn⟩ := h
        obtain ⟨c2', hc2⟩ := ih (yesterday_str date) ((yesterday_str date, source date) :: c1)
          ((yesterday_str date, source date) :: c2) r0 c0 m hrec
        refine ⟨c2', ?_⟩
        rw [hc2]
        dsimp only
        rw [hr, hn]
    · rw [if_neg hcase] at h ⊢
      simp only [Option.some.injEq, Prod.mk.injEq] at h
      obtain ⟨hr, -, hn⟩ := h
      refine ⟨(date, source date) :: c2, ?_⟩
      rw [hr, hn]

/-- C2 (amended): resolving a nominal date `d` that has no published rate
(and is not already cached) walks back to the most recent earlier date
`d' = yesterday_str^[k] d` that has one and returns its payload; the payload
is cached under the *resolved* key `d'`, so a second resolve of `d'` is
served from the cache with zero external queries and the same value.  The
nominal date `d` itself, however, is never cached: a second resolve of `d`
misses the cache and issues the same `n = k + 1` external queries again
(returning the same payload). -/
theorem C2_resolver_fallback (source : Date → QuotationData) (fuel : Nat) (d : Date)
    (cache : BCBCache) (res : QuotationData) (cache' : BCBCache) (n : Nat)
    (hvalid : DateValid d)
    (hmiss : List.lookup d cache = none)
    (hempty : (source d).value = [])
    (hres : get_eur_quotation_data_for_date source fuel d cache = some (res, cache', n)) :
    ∃ k, 1 ≤ k ∧ n = k + 1 ∧
      res = source (yesterday_str^[k] d) ∧
      (source (yesterday_str^[k] d)).value ≠ [] ∧
      (∀ j, j < k → (source (yesterday_str^[j] d)).value = []) ∧
      List.lookup (yesterday_str^[k] d) cache' = some res ∧
      get_eur_quotation_data_for_date source fuel (yesterday_str^[k] d) cache' =
        some (res, cache', 0) ∧
      List.lookup d cache' = none ∧
      ∃ cache2, get_eur_quotation_data_for_date source fuel d cache' =
        some (res, cache2, n) := by
  unfold get_eur_quotation_data_for_date at hres
  rw [hmiss] at hres
  obtain ⟨k, hkf, hn, hreq, hne, hemp, hlk, hunt⟩ :=
    get_eur_quotation_data_loop_spec source fuel d cache res cache' n hres
  have hk1 : 1 ≤ k := by
    rcases Nat.eq_zero_or_pos k with h0 | h1
    · subst h0
      simp only [Function.iterate_zero_apply] at hne
      exact absurd hempty hne
    · exact h1
  have hdne : ∀ j, 1 ≤ j → j ≤ k → d ≠ yesterday_str^[j] d :=
    fun j hj1 _ => (iterate_yesterday_ne hvalid hj1).symm
  have hcd : List.lookup d cache' = none := by
    rw [hunt d (hdne k hk1 (le_refl k)) (fun j hj1 hj2 => hdne j hj1 hj2), hmiss]
  refine ⟨k, hk1, hn, hreq, hne, hemp, hlk, ?_, hcd, ?_⟩
  · unfold get_eur_quotation_data_for_date
    rw [hlk]
  · obtain ⟨c2', hsecond⟩ :=
      get_eur_quotation_data_loop_cache_indep source fuel d cache cache' res cache' n hres
    refine ⟨c2', ?_⟩
    unfold get_eur_quotation_data_for_date
    rw [hcd]
    exact hsecond

/-- A rate source with a two-day gap: 2023-01-07 publishes quotes (buy 5,
sell 26/5), every other date reports an empty `value` list. -/
def gap_source : Date → QuotationData :=
  fun d => if d = ⟨2023, 1, 7⟩ then ⟨[⟨5, 26 / 5⟩]⟩ else ⟨[]⟩

/-- The published payload of 2023-01-07. -/
def gap_quote : QuotationData := ⟨[⟨5, 26 / 5⟩]⟩

/-- The cache state after resolving 2023-01-08 from an empty cache: the empty
payload of 2023-01-08 was stored under the 2023-01-07 key during the walk,
then overwritten by the found payload; 2023-01-08 itself is not a key. -/
def c2_cache1 : BCBCache :=
  [(⟨2023, 1, 7⟩, gap_quote), (⟨2023, 1, 7⟩, ⟨[]⟩)]

/-- The cache after resolving 2023-01-08 a second time (the walk repeats and
prepends the same two bindings again). -/
def c2_cache2 : BCBCache :=
  [(⟨2023, 1, 7⟩, gap_quote), (⟨2023, 1, 7⟩, ⟨[]⟩),
    (⟨2023, 1, 7⟩, gap_quote), (⟨2023, 1, 7⟩, ⟨[]⟩)]

/-- C2 counterexample: after resolving the nominal date 2023-01-08 (whose
rate comes from 2023-01-07), the nominal date is not a cache key, and a
second resolve of that same nominal date issues 2 external queries — not 0 —
refuting "a second resolve for either the original date d or the resolved
date d' returns the same cached value without issuing a new external
query". -/
theorem C2_counterexample :
    get_eur_quotation_data_for_date gap_source 10 ⟨2023, 1, 8⟩ [] =
      some (gap_quote, c2_cache1, 2) ∧
    List.lookup (⟨2023, 1, 8⟩ : Date) c2_cache1 = none ∧
    get_eur_quotation_data_for_date gap_source 10 ⟨2023, 1, 8⟩ c2_cache1 =
      some (gap_quote, c2_cache2, 2) ∧
    (2 : Nat) ≠ 0 :=
  ⟨rfl, rfl, rfl, by decide⟩

/-- C2 witness: the amended resolver theorem applied to the concrete gap
source at the nominal date 2023-01-08. -/
theorem C2_resolver_fallback_witness :
    DateValid ⟨2023, 1, 8⟩ ∧
    List.lookup (⟨2023, 1, 8⟩ : Date) ([] : BCBCache) = none ∧
    (gap_source ⟨2023, 1, 8⟩).value = [] ∧
    get_eur_quotation_data_for_date gap_source 10 ⟨2023, 1, 8⟩ [] =
      some (gap_quote, c2_cache1, 2) ∧
    (∃ k, 1 ≤ k ∧ 2 = k + 1 ∧
      gap_quote = gap_source (yesterday_str^[k] ⟨2023, 1, 8⟩) ∧
      (gap_source (yesterday_str^[k] ⟨2023, 1, 8⟩)).value ≠ [] ∧
      (∀ j, j < k → (gap_source (yesterday_str^[j] ⟨2023, 1, 8⟩)).value = []) ∧
      List.lookup (yesterday_str^[k] ⟨2023, 1, 8⟩) c2_cache1 = some gap_quote ∧
      get_eur_quotation_data_for_date gap_source 10 (yesterday_str^[k] ⟨2023, 1, 8⟩)
          c2_cache1 = some (gap_quote, c2_cache1, 0) ∧
      List.lookup (⟨2023, 1, 8⟩ : Date) c2_cache1 = none ∧
      ∃ cache2, get_eur_quotation_data_for_date gap_source 10 ⟨2023, 1, 8⟩ c2_cache1 =
        some (gap_quote, cache2, 2)) :=
  ⟨by decide, rfl, rfl, rfl,
    C2_resolver_fallback gap_source 10 ⟨2023, 1, 8⟩ [] gap_quote c2_cache1 2
      (by decide) rfl rfl rfl⟩

/-- The cache state after resolving 2023-01-09 from an empty cache: during
the backward walk the empty payload of 2023-01-09 was stored under the
2023-01-08 key and the empty payload of 2023-01-08 under the 2023-01-07 key
(later overwritten by the found payload). -/
def c10_cache1 : BCBCache :=
  [(⟨2023, 1, 7⟩, gap_quote), (⟨2023, 1, 7⟩, ⟨[]⟩), (⟨2023, 1, 8⟩, ⟨[]⟩)]

/-- C10: resolving 2023-01-09 (no data on the 9th or the 8th, data on the
7th) stores the empty 2023-01-09 payload under the 2023-01-08 cache key; a
later resolve of 2023-01-08 is then served that empty payload straight from
the cache (zero external queries), and both price accessors fail on indexing
`value[0]` of the empty list (`none`) instead of returning a rate. -/
theorem C10_stale_empty_payload_poisons_cache :
    get_eur_quotation_data_for_date gap_source 10 ⟨2023, 1, 9⟩ [] =
      some (gap_quote, c10_cache1, 3) ∧
    List.lookup (⟨2023, 1, 8⟩ : Date) c10_cache1 = some ⟨[]⟩ ∧
    get_eur_quotation_data_for_date gap_source 10 ⟨2023, 1, 8⟩ c10_cache1 =
      some (⟨[]⟩, c10_cache1, 0) ∧
    get_price_for_buying_eur_at_date gap_source 10 ⟨2023, 1, 8⟩ c10_cache1 = none ∧
    get_price_for_selling_eur_at_date gap_source 10 ⟨2023, 1, 8⟩ c10_cache1 = none :=
  ⟨rfl, rfl, rfl, rfl, rfl⟩

theorem num_of_cell_round (x : Option ℚ) : num_of_cell (cell_of_opt_num x) = x := by
  cases x <;> rfl

theorem parse_op_type_round (x : Option OpType) :
    parse_enum_op_type (cell_of_op_type x) = x := by
  cases x with
  | none => rfl
  | some o => cases o <;> rfl

theorem parse_conv_type_round (x : Option CurrencyConversionType) :
    parse_enum_conv_type (cell_of_conv_type x) = x := by
  cases x with
  | none => rfl
  | some o => cases o <;> rfl

theorem entry_row_round_trip (e : StockTransactionEntry) :
    entry_of_row (row_of_entry e) = { e with total_cost_brl := none } := by
  obtain ⟨d, op, qty, tq, cr, ct, ap, pe, pb, np, pr, tx, tcb⟩ := e
  simp only [row_of_entry, entry_of_row, num_of_cell_round, parse_op_type_round,
    parse_conv_type_round]

/-- C3 (amended): persisting then reloading restores every `__init__` field
of every entry — date, both symbolic enum tags, and all numeric fields,
absent optionals staying absent — but the dynamically added `total_cost_brl`
attribute (written by the processor on PURCHASE entries and saved to its own
column) is not read back: the reloaded entries lack it. -/
theorem C3_round_trip (entries : List StockTransactionEntry) :
    load_stock_entries_from_excel (save_stock_entries_to_excel entries) =
      entries.map (fun e => { e with total_cost_brl := none }) := by
  induction entries with
  | nil => rfl
  | cons e rest ih =>
    simp only [save_stock_entries_to_excel, load_stock_entries_from_excel,
      List.map_cons] at ih ⊢
    rw [entry_row_round_trip e, ih]

/-- C3 counterexample: the processed example ledger's purchase entry carries
`total_cost_brl = 1000`; saving and reloading the processed ledger does not
reproduce it — the reloaded purchase entry has no `total_cost_brl` — so the
round trip is not field-for-field for fields the processor added. -/
theorem C3_counterexample :
    process_transactions c1_buy_rate c1_sell_rate c1_ledger = Except.ok c1_processed ∧
    (c1_processed.getD 0 dummyEntry).total_cost_brl = some 1000 ∧
    ((load_stock_entries_from_excel (save_stock_entries_to_excel c1_processed)).getD 0
      dummyEntry).total_cost_brl = none ∧
    load_stock_entries_from_excel (save_stock_entries_to_excel c1_processed) ≠
      c1_processed := by
  refine ⟨c1_process_eq, rfl, rfl, ?_⟩
  have hne : ((load_stock_entries_from_excel (save_stock_entries_to_excel
      c1_processed)).getD 0 dummyEntry).total_cost_brl ≠
      (c1_processed.getD 0 dummyEntry).total_cost_brl := by
    show (none : Option ℚ) ≠ some 1000
    simp
  intro h
  exact hne (by rw [h])

/-- C8 (amended): a persisted record whose symbolic operation tag does not
parse is not a load failure: `parse_enum` returns `None`, the load succeeds
and produces an entry whose tag is `None`; the error only surfaces later,
when `process_transactions` reaches that entry and raises its
unsupported-operation `ValueError`. -/
theorem C8_unparseable_tag_loads_as_none (r : ExcelRow)
    (h : parse_enum_op_type r.op_type = none) :
    load_stock_entries_from_excel [r] = [entry_of_row r] ∧
    (entry_of_row r).op_type = none ∧
    (∀ (br sr : Date → ℚ) (rest : List StockTransactionEntry) (tq tc ap : ℚ),
      process_transactions_loop br sr (entry_of_row r :: rest) tq tc ap =
        (entry_of_row r :: rest, some "Unsupported Enum in OpType")) ∧
    (∀ (br sr : Date → ℚ) (rest : List StockTransactionEntry),
      process_transactions br sr (entry_of_row r :: rest) =
        Except.error "Unsupported Enum in OpType") := by
  have hop : (entry_of_row r).op_type = none := h
  have hstep : ∀ (br sr : Date → ℚ) (tq tc ap : ℚ),
      process_transaction_step br sr (entry_of_row r) tq tc ap =
        Except.error "Unsupported Enum in OpType" := by
    intro br sr tq tc ap
    unfold process_transaction_step
    rw [hop]
  have hloop : ∀ (br sr : Date → ℚ) (rest : List StockTransactionEntry) (tq tc ap : ℚ),
      process_transactions_loop br sr (entry_of_row r :: rest) tq tc ap =
        (entry_of_row r :: rest, some "Unsupported Enum in OpType") := by
    intro br sr rest tq tc ap
    simp only [process_transactions_loop, hstep]
  refine ⟨rfl, hop, hloop, ?_⟩
  intro br sr rest
  unfold process_transactions
  rw [hloop]

/-- A persisted row whose operation tag is the unparseable string
`OpType.BANANA`. -/
def c8_bad_row : ExcelRow :=
  ⟨ExcelCell.date ⟨2023, 1, 2⟩, ExcelCell.str "OpType.BANANA", ExcelCell.num 1,
    ExcelCell.empty, ExcelCell.empty, ExcelCell.empty, ExcelCell.empty, ExcelCell.empty,
    ExcelCell.empty, ExcelCell.empty, ExcelCell.empty, ExcelCell.empty, ExcelCell.empty⟩

/-- C8 counterexample: loading a record with the malformed tag
`OpType.BANANA` does not fail at that record — it succeeds and yields an
entry whose operation tag is `None` (a missing/defaulted tag), refuting
"the load fails at that record". -/
theorem C8_counterexample :
    parse_enum_op_type (ExcelCell.str "OpType.BANANA") = none ∧
    load_stock_entries_from_excel [c8_bad_row] = [entry_of_row c8_bad_row] ∧
    (entry_of_row c8_bad_row).op_type = none ∧
    entry_of_row c8_bad_row =
      ⟨⟨2023, 1, 2⟩, none, some 1, none, none, none, none, none, none, none, none, none,
        none⟩ :=
  ⟨rfl, rfl, rfl, rfl⟩

/-- C8 witness: the amended theorem applied to the `OpType.BANANA` row. -/
theorem C8_unparseable_tag_witness :
    parse_enum_op_type c8_bad_row.op_type = none ∧
    (load_stock_entries_from_excel [c8_bad_row] = [entry_of_row c8_bad_row] ∧
      (entry_of_row c8_bad_row).op_type = none ∧
      (∀ (br sr : Date → ℚ) (rest : List StockTransactionEntry) (tq tc ap : ℚ),
        process_transactions_loop br sr (entry_of_row c8_bad_row :: rest) tq tc ap =
          (entry_of_row c8_bad_row :: rest, some "Unsupported Enum in OpType")) ∧
      (∀ (br sr : Date → ℚ) (rest : List StockTransactionEntry),
        process_transactions br sr (entry_of_row c8_bad_row :: rest) =
          Except.error "Unsupported Enum in OpType")) :=
  ⟨rfl, C8_unparseable_tag_loads_as_none c8_bad_row rfl⟩

theorem sort_key_le_trans {a b c : Date × Nat}
    (h1 : sort_key_le a b) (h2 : sort_key_le b c) : sort_key_le a c := by
  obtain ⟨⟨ay, am, ad⟩, ar⟩ := a
  obtain ⟨⟨yb, bm, bd⟩, rb⟩ := b
  obtain ⟨⟨cy, cm, cd⟩, cr⟩ := c
  simp only [sort_key_le, date_lt, Date.mk.injEq] at h1 h2 ⊢
  omega

theorem sort_key_le_total (a b : Date × Nat) : sort_key_le a b ∨ sort_key_le b a := by
  obtain ⟨⟨ay, am, ad⟩, ar⟩ := a
  obtain ⟨⟨yb, bm, bd⟩, rb⟩ := b
  simp only [sort_key_le, date_lt, Date.mk.injEq]
  omega

theorem sort_by_date_le_trans (a b c : StockTransactionEntry)
    (h1 : sort_by_date_le a b = true) (h2 : sort_by_date_le b c = true) :
    sort_by_date_le a c = true := by
  simp only [sort_by_date_le, decide_eq_true_eq] at h1 h2 ⊢
  exact sort_key_le_trans h1 h2

theorem sort_by_date_le_total (a b : StockTransactionEntry) :
    (sort_by_date_le a b || sort_by_date_le b a) = true := by
  simp only [sort_by_date_le, Bool.or_eq_true, decide_eq_true_eq]
  exact sort_key_le_total _ _

/-- C6: for any buy and sell record sequences, the assembler returns exactly
one entry per input record (a permutation of the per-record builds — no
deduplication), all computed fields empty, sorted by the key
`(date, 0 for PURCHASE / 1 for SALE)` — so PURCHASE ranks before SALE on
equal dates — and stably: for every key, the entries with that key appear in
the same order as in the unsorted concatenation, regardless of input
order. -/
theorem C6_merge_builds_sorted_ledger (buy_transactional_data : List (Date × ℚ × ℚ))
    (sell_transactional_data : List (Date × ℚ × ℚ × ℚ)) :
    (merge_transactional_data buy_transactional_data sell_transactional_data true).Perm
      (buy_transactional_data.map entry_of_buy_record
        ++ sell_transactional_data.map entry_of_sell_record) ∧
    (∀ e ∈ merge_transactional_data buy_transactional_data sell_transactional_data true,
      e.total_qty = none ∧ e.cur_conv_rate = none ∧ e.avg_price = none ∧
      e.price_brl = none ∧ e.profit = none ∧ e.tax = none ∧ e.total_cost_brl = none) ∧
    (merge_transactional_data buy_transactional_data sell_transactional_data true).Pairwise
      (fun a b => sort_by_date_le a b = true) ∧
    (∀ k : Date × Nat,
      (merge_transactional_data buy_transactional_data sell_transactional_data true).filter
          (fun e => decide (e.sort_by_date = k)) =
        (buy_transactional_data.map entry_of_buy_record
          ++ sell_transactional_data.map entry_of_sell_record).filter
          (fun e => decide (e.sort_by_date = k))) := by
  have hmerge : merge_transactional_data buy_transactional_data sell_transactional_data true =
      (buy_transactional_data.map entry_of_buy_record
        ++ sell_transactional_data.map entry_of_sell_record).mergeSort sort_by_date_le := by
    simp [merge_transactional_data]
  rw [hmerge]
  refine ⟨List.mergeSort_perm _ _, ?_, ?_, ?_⟩
  · intro e he
    have hbase := (List.mergeSort_perm _ sort_by_date_le).mem_iff.mp he
    rcases List.mem_append.mp hbase with hb | hs
    · obtain ⟨r, -, hr⟩ := List.mem_map.mp hb
      rw [← hr]
      exact ⟨rfl, rfl, rfl, rfl, rfl, rfl, rfl⟩
    · obtain ⟨r, -, hr⟩ := List.mem_map.mp hs
      rw [← hr]
      exact ⟨rfl, rfl, rfl, rfl, rfl, rfl, rfl⟩
  · exact List.sorted_mergeSort sort_by_date_le_trans sort_by_date_le_total _
  · intro k
    set base := buy_transactional_data.map entry_of_buy_record
      ++ sell_transactional_data.map entry_of_sell_record with hbase
    set pk : StockTransactionEntry → Bool := fun e => decide (e.sort_by_date = k) with hpk
    have hkey : ∀ x ∈ base.filter pk, x.sort_by_date = k := by
      intro x hx
      have := List.of_mem_filter hx
      rw [hpk] at this
      exact of_decide_eq_true this
    have hpw : (base.filter pk).Pairwise (fun a b => sort_by_date_le a b = true) := by
      apply List.pairwise_of_forall_mem_list
      intro a ha b hb
      have hka := hkey a ha
      have hkb := hkey b hb
      simp only [sort_by_date_le, decide_eq_true_eq]
      rw [hka, hkb]
      exact Or.inr ⟨rfl, le_refl _⟩
    have hsub : (base.filter pk).Sublist (base.mergeSort sort_by_date_le) :=
      List.sublist_mergeSort sort_by_date_le_trans sort_by_date_le_total hpw
        (List.filter_sublist base)
    have hself : (base.filter pk).filter pk = base.filter pk :=
      List.filter_eq_self.mpr (fun a ha => List.of_mem_filter ha)
    have hsub2 : (base.filter pk).Sublist ((base.mergeSort sort_by_date_le).filter pk) := by
      have := List.Sublist.filter pk hsub
      rw [hself] at this
      exact this
    have hlen : ((base.mergeSort sort_by_date_le).filter pk).length =
        (base.filter pk).length :=
      ((List.mergeSort_perm base sort_by_date_le).filter pk).length_eq
    exact (List.Sublist.eq_of_length hsub2 hlen.symm).symm
